import Mathlib

/-!
Shallow embedding of the quota-driven search campaign engine of
MicrosoftRewardsPilot (the `Search` class in the main source file), together
with theorems settling the frozen claims about its specification.

Conventions of the embedding:
* JS numbers holding point counters are modelled as `Int` (the code only adds
  and subtracts them); the two pacing multipliers, which take fractional
  values, and the delay computation are modelled exactly over `ℚ`.
* Fallible external operations (`getSearchPoints`, tab/navigation primitives)
  are supplied by an `Env` record; a call that may throw is an
  `Except Unit Counters` drawn from a stream indexed by a cursor threaded
  through the state.  `Math.random`-driven choices are likewise oracle
  streams in `Env`.
* Operations whose only effect is logging, human-behaviour simulation or
  page cosmetics are omitted; timed waits are accumulated in a `waitMs`
  field so that the "extra delay" behaviour is observable.
-/

/-- One entry of a dashboard counter array
(`pointProgress` / `pointProgressMax` as exposed to `calculatePoints`). -/
structure CounterEntry where
  pointProgress : Int
  pointProgressMax : Int
deriving Repr, DecidableEq

/-- The `Counters` interface value consumed by the search engine
(`pcSearch`, `mobileSearch`, `shopAndEarn`, `activityAndQuiz`, `dailyPoint`). -/
structure Counters where
  pcSearch : List CounterEntry
  mobileSearch : List CounterEntry
  shopAndEarn : List CounterEntry
  activityAndQuiz : List CounterEntry
  dailyPoint : List CounterEntry
deriving Repr, DecidableEq

/-- The all-empty `Counters` literal built at the bottom of
`getEmptySearchCounters` (source lines 2739-2745). -/
def emptyCounters : Counters := ⟨[], [], [], [], []⟩

/-- `Search.calculatePoints` (source lines 3121-3142).  Mobile uses the first
`mobileSearch` entry; otherwise the PC deficit plus the Edge deficit, each
defaulting to `0` when the entry is absent.  Note the code performs the raw
subtraction `pointProgressMax - pointProgress` with no clamping. -/
def calculatePoints (isMobile : Bool) (counters : Counters) : Int :=
  match isMobile, counters.mobileSearch.head? with
  | true, some mobileData => mobileData.pointProgressMax - mobileData.pointProgress
  | _, _ =>
      (match counters.pcSearch.head? with
        | some genericData => genericData.pointProgressMax - genericData.pointProgress
        | none => 0) +
      (match counters.pcSearch[1]? with
        | some edgeData => edgeData.pointProgressMax - edgeData.pointProgress
        | none => 0)

/-- Claim C1, counterexample: a mobile counter reporting
`pointProgress = 10 > 5 = pointProgressMax` makes `calculatePoints` return
`-5`, a negative deficit — the code has no clamp at `0`. -/
theorem c1_counterexample :
    calculatePoints true ⟨[], [⟨10, 5⟩], [], [], []⟩ = -5 ∧
      ¬ (0 ≤ calculatePoints true ⟨[], [⟨10, 5⟩], [], [], []⟩) := by
  decide

/-- Claim C1 (amended): the computed deficit carries no clamping at `0`; it is
non-negative exactly under the assumption that every counter entry reports
`pointProgress ≤ pointProgressMax`, and can be negative otherwise. -/
theorem c1_calculatePoints_nonneg (isMobile : Bool) (c : Counters)
    (hm : ∀ e ∈ c.mobileSearch, e.pointProgress ≤ e.pointProgressMax)
    (hp : ∀ e ∈ c.pcSearch, e.pointProgress ≤ e.pointProgressMax) :
    0 ≤ calculatePoints isMobile c := by
  obtain ⟨pc, ms, se, aq, dp⟩ := c
  simp only at hm hp
  have hpc : 0 ≤ calculatePoints false ⟨pc, ms, se, aq, dp⟩ := by
    rcases pc with _ | ⟨a, _ | ⟨b, rest⟩⟩
    · simp [calculatePoints]
    · have ha := hp a (List.mem_cons_self a [])
      simp only [calculatePoints, List.head?]
      simp only [List.getElem?_cons_succ, List.getElem?_nil]
      exact add_nonneg (sub_nonneg.mpr ha) le_rfl
    · have ha := hp a (List.mem_cons_self a (b :: rest))
      have hb := hp b (List.mem_cons_of_mem a (List.mem_cons_self b rest))
      simp only [calculatePoints, List.head?]
      simp only [List.getElem?_cons_succ, List.getElem?_cons_zero]
      exact add_nonneg (sub_nonneg.mpr ha) (sub_nonneg.mpr hb)
  cases isMobile
  · exact hpc
  · rcases ms with _ | ⟨m, mtail⟩
    · exact hpc
    · have hmm := hm m (List.mem_cons_self m mtail)
      simp only [calculatePoints, List.head?]
      exact sub_nonneg.mpr hmm

/-- Claim C1, witness for the amended theorem at a concrete input. -/
theorem c1_witness :
    (∀ e ∈ ([⟨4, 10⟩] : List CounterEntry), e.pointProgress ≤ e.pointProgressMax) ∧
      0 ≤ calculatePoints true ⟨[], [⟨4, 10⟩], [], [], []⟩ :=
  ⟨by decide, c1_calculatePoints_nonneg true ⟨[], [⟨4, 10⟩], [], [], []⟩
    (by decide) (by decide)⟩

/-- Base minimum inter-search delay in milliseconds
(`getSmartSearchDelay`, source line 3148): mobile 60s, desktop 45s. -/
def baseMinDelay (isMobile : Bool) : ℚ := if isMobile then 60000 else 45000

/-- Base maximum inter-search delay in milliseconds
(`getSmartSearchDelay`, source line 3149): mobile 150s, desktop 120s. -/
def baseMaxDelay (isMobile : Bool) : ℚ := if isMobile then 150000 else 120000

/-- The two adaptive pacing fields of the `Search` class
(`consecutiveFailures`, `adaptiveDelayMultiplier`, source lines 1261-1262). -/
structure PaceState where
  consecutiveFailures : ℕ
  adaptiveDelayMultiplier : ℚ
deriving Repr, DecidableEq

/-- Initial pacing state: `consecutiveFailures = 0`,
`adaptiveDelayMultiplier = 1.0` (source lines 1261-1262). -/
def initPaceState : PaceState := ⟨0, 1⟩

/-- `Search.handleSearchFailure` (source lines 2714-2717): increment the
failure count and raise the adaptive multiplier by `0.2`, capped at `2.0`. -/
def handleSearchFailure (s : PaceState) : PaceState :=
  ⟨s.consecutiveFailures + 1, min 2 (s.adaptiveDelayMultiplier + 2/10)⟩

/-- `Search.handleSearchSuccess` (source lines 2722-2727): reset the failure
count; while the adaptive multiplier exceeds `1.0`, lower it by `0.1`,
floored at `1.0`. -/
def handleSearchSuccess (s : PaceState) : PaceState :=
  ⟨0, if 1 < s.adaptiveDelayMultiplier
      then max 1 (s.adaptiveDelayMultiplier - 1/10)
      else s.adaptiveDelayMultiplier⟩

/-- The pacing states actually reachable during a run: the initial state
followed by any sequence of failure / success updates. -/
inductive PaceReachable : PaceState → Prop
  | init : PaceReachable initPaceState
  | fail : ∀ {s}, PaceReachable s → PaceReachable (handleSearchFailure s)
  | succ : ∀ {s}, PaceReachable s → PaceReachable (handleSearchSuccess s)

/-- The failure multiplier of `getSmartSearchDelay` (source line 3152):
`min(1 + 0.5 * consecutiveFailures, 3)`. -/
def failureMultiplier (consecutiveFailures : ℕ) : ℚ :=
  min (1 + consecutiveFailures * (1/2)) 3

/-- `Search.getSmartSearchDelay` (source lines 3147-3168).  `rand` stands for
the `Math.random()` draw in `[0, 1)`; the JS computation
`Math.floor(rand * (adjustedMax - adjustedMin + 1)) + adjustedMin` with
`adjusted{Min,Max} = base{Min,Max} * failureMultiplier * adaptiveMultiplier`
is reproduced exactly over `ℚ`. -/
def getSmartSearchDelay (isMobile : Bool) (s : PaceState) (rand : ℚ) : ℚ :=
  (⌊rand * (baseMaxDelay isMobile * failureMultiplier s.consecutiveFailures *
        s.adaptiveDelayMultiplier -
      baseMinDelay isMobile * failureMultiplier s.consecutiveFailures *
        s.adaptiveDelayMultiplier + 1)⌋ : ℚ) +
    baseMinDelay isMobile * failureMultiplier s.consecutiveFailures *
      s.adaptiveDelayMultiplier

/-- In every reachable pacing state the adaptive multiplier has the form
`1 + k/10` with `0 ≤ k ≤ 10`: it starts at `1.0`, moves in steps of `0.2`
(up, capped at `2.0`) and `0.1` (down, floored at `1.0`). -/
theorem adaptive_multiplier_form {s : PaceState} (h : PaceReachable s) :
    ∃ k : ℕ, k ≤ 10 ∧ s.adaptiveDelayMultiplier = 1 + (k : ℚ) / 10 := by
  induction h with
  | init => exact ⟨0, by norm_num, by norm_num [initPaceState]⟩
  | @fail t _ ih =>
      obtain ⟨k, hk, he⟩ := ih
      simp only [handleSearchFailure]
      rcases le_or_lt (k + 2) 10 with hle | hgt
      · refine ⟨k + 2, hle, ?_⟩
        rw [he]
        have hk8 : (k : ℚ) ≤ 8 := by exact_mod_cast (by omega : k ≤ 8)
        rw [min_eq_right (by linarith)]
        push_cast
        ring
      · refine ⟨10, le_rfl, ?_⟩
        rw [he]
        have hk9 : (9 : ℚ) ≤ (k : ℚ) := by exact_mod_cast (by omega : 9 ≤ k)
        rw [min_eq_left (by linarith)]
        norm_num
  | @succ t _ ih =>
      obtain ⟨k, hk, he⟩ := ih
      simp only [handleSearchSuccess]
      split_ifs with h1
      · have hkpos : 1 ≤ k := by
          by_contra hc
          have hk0 : k = 0 := by omega
          rw [he, hk0] at h1
          norm_num at h1
        have hcast : ((k - 1 : ℕ) : ℚ) = (k : ℚ) - 1 := by
          push_cast [Nat.cast_sub hkpos]
          ring
        refine ⟨k - 1, by omega, ?_⟩
        have hsub : t.adaptiveDelayMultiplier - 1/10 = 1 + ((k - 1 : ℕ) : ℚ) / 10 := by
          rw [he, hcast]
          ring
        rw [hsub, max_eq_right (le_add_of_nonneg_right (by positivity))]
      · exact ⟨k, hk, he⟩

/-- Claim C3: for any number of consecutive failures and any reachable
adaptive multiplier, the smart search delay lies within
`[base.min * 1.0, base.max * 3.0 * 2.0]`, for either device class, given the
uniform draw `rand ∈ [0, 1)`. -/
theorem c3_smart_delay_bounds (isMobile : Bool) (cf : ℕ) (a rand : ℚ)
    (ha : ∃ s, PaceReachable s ∧ s.adaptiveDelayMultiplier = a)
    (h0 : 0 ≤ rand) (h1 : rand < 1) :
    baseMinDelay isMobile * 1 ≤ getSmartSearchDelay isMobile ⟨cf, a⟩ rand ∧
      getSmartSearchDelay isMobile ⟨cf, a⟩ rand ≤ baseMaxDelay isMobile * 3 * 2 := by
  obtain ⟨s, hs, hsa⟩ := ha
  obtain ⟨k, hk, hae⟩ := adaptive_multiplier_form hs
  have haf : a = 1 + (k : ℚ) / 10 := by rw [← hsa, hae]
  -- twice the failure multiplier is a natural number between 2 and 6
  obtain ⟨p, hp2, hp6, hpfm⟩ :
      ∃ p : ℕ, 2 ≤ p ∧ p ≤ 6 ∧ failureMultiplier cf = (p : ℚ) / 2 := by
    rcases le_or_lt ((1 : ℚ) + cf * (1/2)) 3 with hle | hgt
    · have hcf : cf ≤ 4 := by
        by_contra hc
        have : (5 : ℚ) ≤ (cf : ℚ) := by exact_mod_cast (by omega : 5 ≤ cf)
        linarith
      refine ⟨2 + cf, by omega, by omega, ?_⟩
      rw [failureMultiplier, min_eq_left hle]
      push_cast
      ring
    · refine ⟨6, by omega, by omega, ?_⟩
      rw [failureMultiplier, min_eq_right (le_of_lt hgt)]
      norm_num
  -- the base delay window is a multiple of 20 ms
  obtain ⟨c, hc⟩ : ∃ c : ℕ, baseMaxDelay isMobile - baseMinDelay isMobile = 20 * (c : ℚ) := by
    cases isMobile
    · exact ⟨3750, by norm_num [baseMinDelay, baseMaxDelay]⟩
    · exact ⟨4500, by norm_num [baseMinDelay, baseMaxDelay]⟩
  have hbmin : 0 < baseMinDelay isMobile := by
    cases isMobile <;> norm_num [baseMinDelay]
  have hbmax : 0 < baseMaxDelay isMobile := by
    cases isMobile <;> norm_num [baseMaxDelay]
  have hfm1 : 1 ≤ failureMultiplier cf := by
    rw [hpfm]
    have : (2 : ℚ) ≤ (p : ℚ) := by exact_mod_cast hp2
    linarith
  have hfm3 : failureMultiplier cf ≤ 3 := by
    rw [hpfm]
    have : (p : ℚ) ≤ 6 := by exact_mod_cast hp6
    linarith
  have ha1 : 1 ≤ a := by
    rw [haf]
    exact le_add_of_nonneg_right (by positivity)
  have ha2 : a ≤ 2 := by
    rw [haf]
    have : (k : ℚ) ≤ 10 := by exact_mod_cast hk
    linarith
  have hgoal : getSmartSearchDelay isMobile ⟨cf, a⟩ rand =
      (⌊rand * (baseMaxDelay isMobile * failureMultiplier cf * a -
        baseMinDelay isMobile * failureMultiplier cf * a + 1)⌋ : ℚ) +
      baseMinDelay isMobile * failureMultiplier cf * a := rfl
  -- the adjusted window width is the natural number c * p * (10 + k)
  have hD : baseMaxDelay isMobile * failureMultiplier cf * a -
      baseMinDelay isMobile * failureMultiplier cf * a =
      ((c * p * (10 + k) : ℕ) : ℚ) := by
    have hfac : baseMaxDelay isMobile * failureMultiplier cf * a -
        baseMinDelay isMobile * failureMultiplier cf * a =
        (baseMaxDelay isMobile - baseMinDelay isMobile) * failureMultiplier cf * a := by
      ring
    rw [hfac, hc, hpfm, haf]
    push_cast
    ring
  rw [hgoal, hD]
  constructor
  · -- lower bound
    have hfloor : (0 : ℤ) ≤ ⌊rand * (((c * p * (10 + k) : ℕ) : ℚ) + 1)⌋ := by
      apply Int.floor_nonneg.mpr
      positivity
    have hmin : baseMinDelay isMobile * 1 ≤
        baseMinDelay isMobile * failureMultiplier cf * a := by
      calc baseMinDelay isMobile * 1 = baseMinDelay isMobile * 1 * 1 := by ring
        _ ≤ baseMinDelay isMobile * failureMultiplier cf * a := by
            apply mul_le_mul _ ha1 (by norm_num) _
            · exact mul_le_mul_of_nonneg_left hfm1 (le_of_lt hbmin)
            · positivity
    have hfq : (0 : ℚ) ≤ (⌊rand * (((c * p * (10 + k) : ℕ) : ℚ) + 1)⌋ : ℚ) := by
      exact_mod_cast hfloor
    linarith
  · -- upper bound
    have hfloor : (⌊rand * (((c * p * (10 + k) : ℕ) : ℚ) + 1)⌋ : ℤ) ≤ (c * p * (10 + k) : ℕ) := by
      have hpos : (0 : ℚ) < ((c * p * (10 + k) : ℕ) : ℚ) + 1 := by positivity
      have hlt : rand * (((c * p * (10 + k) : ℕ) : ℚ) + 1) <
          ((c * p * (10 + k) : ℕ) : ℚ) + 1 := by
        calc rand * (((c * p * (10 + k) : ℕ) : ℚ) + 1) <
            1 * (((c * p * (10 + k) : ℕ) : ℚ) + 1) := mul_lt_mul_of_pos_right h1 hpos
          _ = ((c * p * (10 + k) : ℕ) : ℚ) + 1 := by ring
      have h2 : ⌊rand * (((c * p * (10 + k) : ℕ) : ℚ) + 1)⌋ <
          ((c * p * (10 + k) : ℕ) : ℤ) + 1 := by
        apply Int.floor_lt.mpr
        push_cast
        push_cast at hlt
        exact hlt
      omega
    have hmax : baseMaxDelay isMobile * failureMultiplier cf * a ≤
        baseMaxDelay isMobile * 3 * 2 := by
      apply mul_le_mul _ ha2 _ _
      · exact mul_le_mul_of_nonneg_left hfm3 (le_of_lt hbmax)
      · linarith
      · positivity
    have hfq : ((⌊rand * (((c * p * (10 + k) : ℕ) : ℚ) + 1)⌋ : ℤ) : ℚ) ≤
        ((c * p * (10 + k) : ℕ) : ℚ) := by exact_mod_cast hfloor
    linarith

/-- Claim C3, witness: the bounds instantiated at the initial pacing state,
mobile device class and draw `1/2`. -/
theorem c3_witness :
    (0 : ℚ) ≤ 1/2 ∧ ((1 : ℚ)/2 < 1) ∧
      (baseMinDelay true * 1 ≤ getSmartSearchDelay true ⟨0, 1⟩ (1/2) ∧
        getSmartSearchDelay true ⟨0, 1⟩ (1/2) ≤ baseMaxDelay true * 3 * 2) :=
  ⟨by norm_num, by norm_num,
    c3_smart_delay_bounds true 0 1 (1/2) ⟨initPaceState, PaceReachable.init, rfl⟩
      (by norm_num) (by norm_num)⟩

/-- An element of `allSearchQueries` (source line 1313): the union type
`GoogleSearch | string`.  A `GoogleSearch` object carries its JS object
identity `oid`, since `new Set` deduplicates objects by reference, not by
content. -/
inductive SearchQuery where
  | str (text : String)
  | goog (oid : Nat) (topic : String) (related : List String)
deriving Repr, DecidableEq

/-- JS `SameValueZero` equality as used by `new Set` on
`GoogleSearch | string` values: strings compare by value, objects by
reference identity. -/
def jsSame : SearchQuery → SearchQuery → Bool
  | .str a, .str b => a == b
  | .goog i _ _, .goog j _ _ => i == j
  | _, _ => false

/-- Helper for `Array.from(new Set(...))`: keep the first occurrence of each
element (insertion order), where `seen` is the set built so far. -/
def jsSetDedupAux : List SearchQuery → List SearchQuery → List SearchQuery
  | _, [] => []
  | seen, x :: xs =>
      if seen.any (fun s => jsSame s x) then jsSetDedupAux seen xs
      else x :: jsSetDedupAux (x :: seen) xs

/-- `Array.from(new Set(allSearchQueries))` (source line 1317). -/
def jsSetDedup (l : List SearchQuery) : List SearchQuery := jsSetDedupAux [] l

/-- `typeof query === 'string' ? query : query.topic` (source line 1611). -/
def queryText : SearchQuery → String
  | .str t => t
  | .goog _ t _ => t

/-- The query flattening of `doSearch` (source lines 1340-1346): a plain
string stays itself; a `GoogleSearch` contributes only its topic on mobile,
and topic followed by all related terms on desktop. -/
def flattenQueries (isMobile : Bool) (l : List SearchQuery) : List String :=
  (l.map fun q =>
    match q with
    | .str t => [t]
    | .goog _ topic related => if isMobile then [topic] else topic :: related).flatten

/-- Every output element of the dedup helper avoids everything in `seen`. -/
theorem jsSetDedupAux_not_seen {y : SearchQuery} :
    ∀ (seen l : List SearchQuery), y ∈ jsSetDedupAux seen l →
      ∀ s ∈ seen, jsSame s y = false := by
  intro seen l
  induction l generalizing seen with
  | nil => simp [jsSetDedupAux]
  | cons x xs ih =>
      simp only [jsSetDedupAux]
      split_ifs with hseen
      · exact ih seen
      · intro hy s hs
        rcases List.mem_cons.mp hy with rfl | hy'
        · simp only [List.any_eq_true, not_exists, not_and] at hseen
          exact Bool.not_eq_true _ |>.mp (hseen s hs)
        · exact ih (x :: seen) hy' s (List.mem_cons_of_mem x hs)

/-- The dedup output is pairwise distinct under JS `SameValueZero`. -/
theorem jsSetDedupAux_pairwise :
    ∀ (seen l : List SearchQuery),
      (jsSetDedupAux seen l).Pairwise (fun a b => jsSame a b = false) := by
  intro seen l
  induction l generalizing seen with
  | nil => simp [jsSetDedupAux]
  | cons x xs ih =>
      simp only [jsSetDedupAux]
      split_ifs with hseen
      · exact ih seen
      · refine List.Pairwise.cons ?_ (ih (x :: seen))
        intro y hy
        exact jsSetDedupAux_not_seen (x :: seen) xs hy x (List.mem_cons_self x _)

/-- The dedup output is a subsequence of the input (membership form). -/
theorem jsSetDedupAux_subset {y : SearchQuery} :
    ∀ (seen l : List SearchQuery), y ∈ jsSetDedupAux seen l → y ∈ l := by
  intro seen l
  induction l generalizing seen with
  | nil => simp [jsSetDedupAux]
  | cons x xs ih =>
      simp only [jsSetDedupAux]
      split_ifs with hseen
      · intro hy
        exact List.mem_cons_of_mem x (ih seen hy)
      · intro hy
        rcases List.mem_cons.mp hy with rfl | hy'
        · exact List.mem_cons_self y xs
        · exact List.mem_cons_of_mem x (ih (x :: seen) hy')

/-- On a list of plain-string queries the flattening is just the text of each
query, for either device class. -/
theorem flattenQueries_all_str (m : Bool) :
    ∀ (d : List SearchQuery), (∀ q ∈ d, ∃ t, q = SearchQuery.str t) →
      flattenQueries m d = d.map queryText := by
  intro d
  induction d with
  | nil => intro _; rfl
  | cons q d ih =>
      intro hstr
      obtain ⟨t, rfl⟩ := hstr q (List.mem_cons_self q d)
      have htail := ih (fun q' hq' => hstr q' (List.mem_cons_of_mem _ hq'))
      have hcons : flattenQueries m (SearchQuery.str t :: d) =
          [t] ++ flattenQueries m d := rfl
      rw [hcons, htail]
      rfl

/-- Claim C8, counterexample: dedup happens before flattening and compares
`GoogleSearch` objects by identity, so the submitted sequence repeats
query text — on desktop a related term equal to its own topic survives, and
on mobile two distinct objects with the same topic both survive. -/
theorem c8_counterexample :
    flattenQueries false (jsSetDedup [.goog 0 "ai" ["ai"]]) = ["ai", "ai"] ∧
      ¬ (flattenQueries false (jsSetDedup [.goog 0 "ai" ["ai"]])).Nodup ∧
      flattenQueries true (jsSetDedup [.goog 0 "cat" [], .goog 1 "cat" []]) =
        ["cat", "cat"] ∧
      ¬ (flattenQueries true
          (jsSetDedup [.goog 0 "cat" [], .goog 1 "cat" []])).Nodup := by
  decide

/-- Claim C8 (amended): the planned sequence is deduplicated with JS `Set`
semantics — by text for plain strings, by object identity for topic
objects — before flattening, so repeated text is possible in general; when
every planned query is a plain string, no text appears twice in the
flattened submitted sequence, for either device class. -/
theorem c8_flatten_dedup_nodup (m : Bool) (l : List SearchQuery)
    (hstr : ∀ q ∈ l, ∃ t, q = SearchQuery.str t) :
    (flattenQueries m (jsSetDedup l)).Nodup := by
  have hsub : ∀ q ∈ jsSetDedup l, ∃ t, q = SearchQuery.str t := fun q hq =>
    hstr q (jsSetDedupAux_subset [] l hq)
  rw [flattenQueries_all_str m _ hsub]
  have hpw := jsSetDedupAux_pairwise [] l
  show ((jsSetDedup l).map queryText).Pairwise (· ≠ ·)
  rw [List.pairwise_map]
  refine hpw.imp_of_mem ?_
  intro a b ha hb hab
  obtain ⟨ta, rfl⟩ := hsub a ha
  obtain ⟨tb, rfl⟩ := hsub b hb
  simp only [jsSame, beq_eq_false_iff_ne, ne_eq] at hab
  simpa [queryText] using hab

/-- Claim C8, witness: the amended theorem applied to a concrete all-string
plan with an internal duplicate. -/
theorem c8_witness :
    (∀ q ∈ [SearchQuery.str "a", SearchQuery.str "b", SearchQuery.str "a"],
        ∃ t, q = SearchQuery.str t) ∧
      (flattenQueries true
        (jsSetDedup [SearchQuery.str "a", SearchQuery.str "b",
          SearchQuery.str "a"])).Nodup :=
  have hstr : ∀ q ∈ [SearchQuery.str "a", SearchQuery.str "b", SearchQuery.str "a"],
      ∃ t, q = SearchQuery.str t := by
    intro q hq
    rcases List.mem_cons.mp hq with rfl | hq
    · exact ⟨"a", rfl⟩
    rcases List.mem_cons.mp hq with rfl | hq
    · exact ⟨"b", rfl⟩
    rcases List.mem_cons.mp hq with rfl | hq
    · exact ⟨"a", rfl⟩
    · simp at hq
  ⟨hstr, c8_flatten_dedup_nodup true _ hstr⟩

/-- Outcome of one attempt of the retry loop inside `bingSearch`
(source lines 2047-2487), as classified by the code itself:
* `evalCrashRecover`: the responsiveness probe failed (lines 2068-2095) and a
  fresh page was attempted (`newPageOk` tells whether that succeeded);
* `success`: the attempt reached the final points fetch (line 2396);
* `errBrowserClosed`: the outer catch classified the error as
  browser/page closed (lines 2421-2436);
* `errCrashed`: target crash / memory error (lines 2425-2465), with the
  outcome of the new-page attempt;
* `errOther`: any other thrown error (lines 2467-2485), with the outcome of
  the tab-reset attempt. -/
inductive BingEvent where
  | evalCrashRecover (newPageOk : Bool)
  | success
  | errBrowserClosed
  | errCrashed (newPageOk : Bool)
  | errOther (tabResetOk : Bool)
deriving Repr, DecidableEq

/-- The environment of a campaign run: device class plus oracles for every
external effect.  `getSearchPoints` is the external progress fetch, which may
throw (`Except.error`), indexed by a call cursor; `bingEvent` drives the
retry loop of `bingSearch`; `now` is the stream of `Date.now()` readings made
by the main loop; `rand` feeds `getSmartSearchDelay`; the remaining oracles
stand for the random query-planning helpers. -/
structure Env where
  isMobile : Bool
  getSearchPoints : Nat → Except Unit Counters
  bingEvent : Nat → BingEvent
  now : Nat → Int
  rand : Nat → ℚ
  useContextual : Nat → Bool
  contextQueries : Nat → String → List String
  uaRefreshOk : Nat → Bool
  relatedTerms : String → List String
  additionalQueries : Nat → List SearchQuery
  diversifiedQueries : List SearchQuery
  shuffle : List SearchQuery → List SearchQuery
  latestTabOk : Bool
  gotoOk : Bool

/-- The oracle cursors and accounting threaded through a run: the pacing
state, one cursor per oracle stream, the number of `bingSearch` invocations,
and the accumulated milliseconds of `wait(...)` calls modelled. -/
structure RunState where
  pace : PaceState
  fetchIdx : Nat
  bingIdx : Nat
  timeIdx : Nat
  randIdx : Nat
  ctxIdx : Nat
  ctxGenIdx : Nat
  uaIdx : Nat
  addIdx : Nat
  bingCalls : Nat
  waitMs : ℚ
deriving Repr, DecidableEq

/-- The state at the start of `doSearch`. -/
def initRunState : RunState := ⟨initPaceState, 0, 0, 0, 0, 0, 0, 0, 0, 0, 0⟩

/-- Advance the progress-fetch cursor by one consumed reading. -/
def fetchBump (s : RunState) : RunState := { s with fetchIdx := s.fetchIdx + 1 }

/-- Record one `handleSearchFailure` call (line 2417). -/
def recordFailure (s : RunState) : RunState := { s with pace := handleSearchFailure s.pace }

/-- `Search.getEmptySearchCounters` (source lines 2732-2747): first re-attempt
a real progress fetch; only if that also fails return the all-empty
`Counters` literal. -/
def getEmptySearchCounters (env : Env) (s : RunState) : RunState × Counters :=
  match env.getSearchPoints s.fetchIdx with
  | .ok c => (fetchBump s, c)
  | .error _ => (fetchBump s, emptyCounters)

/-- The retry loop of `bingSearch` (source lines 2047-2490); `i` is the JS
loop counter and `remaining = 5 - i` attempts are left.  Every classified
failure path ends in `getEmptySearchCounters`; a successful attempt returns
the freshly fetched counters after `handleSearchSuccess` (line 2406), and a
failed final points fetch falls back to `getEmptySearchCounters`
(line 2412). -/
def bingSearchAux (env : Env) : Nat → Nat → RunState → RunState × Counters
  | 0, _, s => getEmptySearchCounters env s
  | remaining + 1, i, s =>
      match env.bingEvent s.bingIdx, { s with bingIdx := s.bingIdx + 1 } with
      | .evalCrashRecover newPageOk, s1 =>
          if newPageOk then bingSearchAux env remaining (i + 1) s1
          else getEmptySearchCounters env s1
      | .success, s1 =>
          match env.getSearchPoints s1.fetchIdx with
          | .ok c => ({ fetchBump s1 with pace := handleSearchSuccess s1.pace }, c)
          | .error _ => getEmptySearchCounters env (fetchBump s1)
      | .errBrowserClosed, s1 => getEmptySearchCounters env (recordFailure s1)
      | .errCrashed newPageOk, s1 =>
          if i < 4 then
            if newPageOk then bingSearchAux env remaining (i + 1) (recordFailure s1)
            else getEmptySearchCounters env (recordFailure s1)
          else getEmptySearchCounters env (recordFailure s1)
      | .errOther tabResetOk, s1 =>
          if i = 4 then getEmptySearchCounters env (recordFailure s1)
          else if tabResetOk then
            bingSearchAux env remaining (i + 1)
              { recordFailure s1 with waitMs := s1.waitMs + 4000 }
          else getEmptySearchCounters env (recordFailure s1)

/-- `Search.bingSearch` (source lines 2043-2491): up to 5 attempts, always
producing a `Counters` value. -/
def bingSearch (env : Env) (s : RunState) : RunState × Counters :=
  bingSearchAux env 5 0 { s with bingCalls := s.bingCalls + 1 }

/-- The overall wall-clock budget of the primary search loop
(source line 1350): 20 minutes. -/
def searchTimeoutMs : Int := 20 * 60 * 1000

/-- The mutable state of the primary `doSearch` query loop
(source lines 1336-1359). -/
structure LoopState where
  run : RunState
  missingPoints : Int
  maxLoop : Nat
  earnedPoints : Int
  completedSearches : Nat
  contextSearchCount : Nat
  lastSuccessfulQuery : Option String
  startTime : Int
deriving Repr, DecidableEq

/-- Result of one iteration of the primary query loop:
* `next`: fall through to the next query (also the `continue` paths);
* `timeout`: the 20-minute check at the top broke the loop (line 1365);
* `completed`: the `missingPoints === 0` break (line 1481);
* `completedFinal`: the break inside the final check of the abort path
  (line 1546);
* `aborted`: the stall-limit break (line 1554);
* `error`: an exception escaped `doSearch` (an unguarded `await` threw). -/
inductive StepRes where
  | next (s : LoopState)
  | timeout (s : LoopState)
  | completed (s : LoopState)
  | completedFinal (s : LoopState)
  | aborted (s : LoopState)
  | error
deriving Repr, DecidableEq

/-- Tail of a primary-loop iteration from the unconditional assignment
`missingPoints = newMissingPoints` (line 1466) to the end of the body
(line 1588): the completion break with its unguarded verification fetch
(lines 1468-1482), the mobile User-Agent-refresh `continue` for a stall
counter above 5 (lines 1494-1525), the device-specific stall limit with its
guarded final check (lines 1527-1555), and the smart delay (lines 1557-1559).
The mobile `maxLoop === 3` diagnostics block (lines 1562-1588) only touches
the page and is omitted. -/
def mainStepTail (env : Env) (st0 : LoopState) (newMissing : Int) : StepRes :=
  match ({ st0 with missingPoints := newMissing } : LoopState) with
  | st =>
    if st.missingPoints = 0 then
      match env.getSearchPoints st.run.fetchIdx with
      | .ok _ =>
          .completed { st with run := fetchBump { st.run with waitMs := st.run.waitMs + 2000 } }
      | .error _ => .error
    else
      if 5 < st.maxLoop ∧ env.isMobile then
        .next { st with
                maxLoop := 0,
                run := { st.run with
                         uaIdx := st.run.uaIdx + 1,
                         waitMs := st.run.waitMs +
                           (if env.uaRefreshOk st.run.uaIdx then 30000 else 180000) } }
      else
        if (if env.isMobile then 10 else 15) < st.maxLoop then
          match env.getSearchPoints st.run.fetchIdx with
          | .ok c =>
              if calculatePoints env.isMobile c < st.missingPoints then
                if calculatePoints env.isMobile c = 0 then
                  .completedFinal { st with
                                    missingPoints := calculatePoints env.isMobile c,
                                    run := fetchBump { st.run with
                                                       waitMs := st.run.waitMs + 5000 } }
                else
                  .aborted { st with
                             missingPoints := calculatePoints env.isMobile c,
                             maxLoop := 0,
                             run := fetchBump { st.run with
                                                waitMs := st.run.waitMs + 5000 } }
              else
                .aborted { st with
                           maxLoop := 0,
                           run := fetchBump { st.run with
                                              waitMs := st.run.waitMs + 5000 } }
          | .error _ =>
              .aborted { st with
                         maxLoop := 0,
                         run := fetchBump { st.run with
                                            waitMs := st.run.waitMs + 5000 } }
        else
          .next { st with
                  run := { st.run with
                           randIdx := st.run.randIdx + 1,
                           waitMs := st.run.waitMs +
                             getSmartSearchDelay env.isMobile st.run.pace
                               (env.rand st.run.randIdx) } }

/-- The stall bookkeeping of a primary-loop iteration (source lines
1428-1464): on `NoChange` increment `maxLoop`, with the forced re-check at
exactly 3 (lines 1430-1448, `continue` when the re-check reports a different
value), the 30 s extra wait at exactly 5 (lines 1450-1453) and the desktop
60 s wait at exactly 8 (lines 1456-1460); on any change of the computed
deficit reset `maxLoop` and remember the query (lines 1461-1464). -/
def stallBranch (env : Env) (query : String) (st : LoopState) (newMissing : Int) : StepRes :=
  if newMissing = st.missingPoints then
    if st.maxLoop + 1 = 3 then
      match env.getSearchPoints st.run.fetchIdx with
      | .ok c =>
          if calculatePoints env.isMobile c ≠ st.missingPoints then
            .next { st with
                    maxLoop := 0,
                    missingPoints := calculatePoints env.isMobile c,
                    run := fetchBump st.run }
          else
            mainStepTail env { st with
                               maxLoop := st.maxLoop + 1,
                               run := fetchBump st.run } newMissing
      | .error _ =>
          mainStepTail env { st with
                             maxLoop := st.maxLoop + 1,
                             run := fetchBump st.run } newMissing
    else if st.maxLoop + 1 = 5 then
      mainStepTail env { st with
                         maxLoop := st.maxLoop + 1,
                         run := { st.run with
                                  waitMs := st.run.waitMs + 30000 } } newMissing
    else if ¬env.isMobile ∧ st.maxLoop + 1 = 8 then
      mainStepTail env { st with
                         maxLoop := st.maxLoop + 1,
                         run := { st.run with
                                  waitMs := st.run.waitMs + 60000 } } newMissing
    else
      mainStepTail env { st with maxLoop := st.maxLoop + 1 } newMissing
  else
    mainStepTail env { st with
                       maxLoop := 0,
                       lastSuccessfulQuery := some query } newMissing

/-- JS truthiness of the `lastSuccessfulQuery` variable (line 1371): a
non-null, non-empty string. -/
def jsTruthy : Option String → Bool
  | some t => t != ""
  | none => false

/-- The search part of a primary-loop iteration (source lines 1389-1425 plus
the dispatch into the stall bookkeeping): count the attempt, run
`bingSearch`, accumulate `earnedPoints` when the deficit went down
(lines 1396-1399), then continue with the comparison on the freshly computed
deficit. -/
def mainStepSearch (env : Env) (query : String) (st : LoopState) : StepRes :=
  match bingSearch env st.run with
  | (r, counters) =>
      stallBranch env query
        { st with
          run := r,
          completedSearches := st.completedSearches + 1,
          earnedPoints :=
            if 0 < st.missingPoints - calculatePoints env.isMobile counters
            then st.earnedPoints + (st.missingPoints - calculatePoints env.isMobile counters)
            else st.earnedPoints }
        (calculatePoints env.isMobile counters)

/-- The contextual-query substitution of a primary-loop iteration (source
lines 1371-1386): `shouldUseContextualSearch()` is drawn from the
`useContextual` oracle (it is invoked every iteration by JS short-circuit
evaluation); when it fires with a truthy last successful query and fewer than
3 consecutive contextual searches, the head of a freshly generated contextual
list replaces the planned query; otherwise the contextual counter resets. -/
def mainStepGo (env : Env) (query : String) (st : LoopState) : StepRes :=
  if env.useContextual st.run.ctxIdx ∧ jsTruthy st.lastSuccessfulQuery ∧
      st.contextSearchCount < 3 then
    match (env.contextQueries st.run.ctxGenIdx (st.lastSuccessfulQuery.getD "")).head? with
    | some cq =>
        if cq ≠ "" then
          mainStepSearch env cq
            { st with
              contextSearchCount := st.contextSearchCount + 1,
              run := { st.run with
                       ctxIdx := st.run.ctxIdx + 1,
                       ctxGenIdx := st.run.ctxGenIdx + 1 } }
        else
          mainStepSearch env query
            { st with run := { st.run with
                               ctxIdx := st.run.ctxIdx + 1,
                               ctxGenIdx := st.run.ctxGenIdx + 1 } }
    | none =>
        mainStepSearch env query
          { st with run := { st.run with
                             ctxIdx := st.run.ctxIdx + 1,
                             ctxGenIdx := st.run.ctxGenIdx + 1 } }
  else
    mainStepSearch env query
      { st with
        contextSearchCount := 0,
        run := { st.run with ctxIdx := st.run.ctxIdx + 1 } }

/-- One full iteration of the primary query loop (source lines 1361-1588),
starting with the wall-clock budget check at the top (lines 1362-1366). -/
def mainStep (env : Env) (query : String) (st : LoopState) : StepRes :=
  if searchTimeoutMs < env.now st.run.timeIdx - st.startTime then
    .timeout { st with run := { st.run with timeIdx := st.run.timeIdx + 1 } }
  else
    mainStepGo env query { st with run := { st.run with timeIdx := st.run.timeIdx + 1 } }

/-- How the primary `for` loop over the flattened queries ended. -/
inductive MainRes where
  | exhausted (s : LoopState)
  | timeout (s : LoopState)
  | completed (s : LoopState)
  | completedFinal (s : LoopState)
  | aborted (s : LoopState)
  | error
deriving Repr, DecidableEq

/-- The primary `for` loop of `doSearch` (source lines 1361-1589), iterating
`mainStep` over the flattened query list. -/
def mainLoop (env : Env) : List String → LoopState → MainRes
  | [], st => .exhausted st
  | q :: qs, st =>
      match mainStep env q st with
      | .next st1 => mainLoop env qs st1
      | .timeout st1 => .timeout st1
      | .completed st1 => .completed st1
      | .completedFinal st1 => .completedFinal st1
      | .aborted st1 => .aborted st1
      | .error => .error

/-- The mutable state of the extra-search phase (source lines 1592-1599). -/
structure ExtraState where
  run : RunState
  missingPoints : Int
  maxLoop : Nat
  extraSearchCount : Nat
  i : Nat
  allQueries : List SearchQuery
deriving Repr, DecidableEq

/-- Result of the inner `for (const term of relatedTerms.slice(1, 3))` loop
(source lines 1614-1643): either fall through to the rest of the `while`
body, or the `return` at line 1641 that leaves `doSearch` entirely. -/
inductive InnerRes where
  | cont (s : ExtraState)
  | earlyReturn (s : ExtraState)
deriving Repr, DecidableEq

/-- The inner loop over (at most two) related terms (source lines 1614-1643):
break when the attempt budget is reached (line 1615), otherwise run one
supplementary `bingSearch`, update the stall counter and the deficit exactly
as the code does (lines 1619-1630), break on deficit 0 (line 1635), and
return out of `doSearch` when the stall counter exceeds 5 (line 1641). -/
def extraInner (env : Env) (maxExtra : Nat) : List String → ExtraState → InnerRes
  | [], s => .cont s
  | _ :: rest, s =>
      if maxExtra ≤ s.extraSearchCount then .cont s
      else
        match bingSearch env s.run with
        | (r, counters) =>
            match ({ s with
                     run := r,
                     extraSearchCount := s.extraSearchCount + 1,
                     maxLoop := if calculatePoints env.isMobile counters = s.missingPoints
                                then s.maxLoop + 1 else 0,
                     missingPoints := calculatePoints env.isMobile counters } : ExtraState) with
            | s1 =>
                if s1.missingPoints = 0 then .cont s1
                else if 5 < s1.maxLoop then .earlyReturn s1
                else extraInner env maxExtra rest s1

/-- How the extra-search `while` loop ended: normally (`done`), through the
`return` at line 1641 (`earlyReturn`), by an exception escaping (`error` —
reading `.topic` of an `undefined` array element, line 1611), or by fuel
exhaustion of the model (the loop itself has no iteration bound). -/
inductive ExtraRes where
  | done (s : ExtraState)
  | earlyReturn (s : ExtraState)
  | error
  | fuelOut
deriving Repr, DecidableEq

/-- The extra-search `while` loop (source lines 1600-1647): while the deficit
is positive and the attempt budget is not exhausted, replenish
`allSearchQueries` from `generateAdditionalQueries` when the draw index ran
past the end (lines 1601-1606), draw the next query (line 1608, `i++`), fetch
its related terms, and run the inner loop when more than 3 terms came back
(lines 1611-1643); break on deficit 0 (line 1646).  Note: no wall-clock check
appears anywhere in this loop. -/
def extraLoop (env : Env) (maxExtra : Nat) : Nat → ExtraState → ExtraRes
  | 0, _ => .fuelOut
  | fuel + 1, s =>
      if 0 < s.missingPoints ∧ s.extraSearchCount < maxExtra then
        match ((if s.allQueries.length ≤ s.i
                then { s with
                       allQueries := s.allQueries ++ env.additionalQueries s.run.addIdx,
                       run := { s.run with addIdx := s.run.addIdx + 1 } }
                else s) : ExtraState) with
        | s1 =>
            match s1.allQueries[s1.i]? with
            | none => .error
            | some q =>
                match ({ s1 with i := s1.i + 1 } : ExtraState) with
                | s2 =>
                    if 3 < (env.relatedTerms (queryText q)).length then
                      match extraInner env maxExtra
                          (((env.relatedTerms (queryText q)).drop 1).take 2) s2 with
                      | .earlyReturn s3 => .earlyReturn s3
                      | .cont s3 =>
                          if s3.missingPoints = 0 then .done s3
                          else extraLoop env maxExtra fuel s3
                    else
                      if s2.missingPoints = 0 then .done s2
                      else extraLoop env maxExtra fuel s2
      else .done s

/-- The overall outcome of `doSearch`. -/
inductive DoSearchRes where
  | alreadyCompleted (run : RunState)
  | finished (missingPoints : Int) (run : RunState)
  | error
  | fuelOut
deriving Repr, DecidableEq

/-- Continuation of `doSearch` after the primary loop (source lines
1592-1673): when points are still missing, run the extra-search phase with
the device-dependent budget (20 mobile / 50 desktop, line 1596); afterwards,
on a still-positive deficit the desktop path performs one more unguarded
progress fetch for logging (lines 1652-1668). -/
def afterMainLoop (env : Env) (fuel : Nat) (allQ : List SearchQuery) (st : LoopState) :
    DoSearchRes :=
  if 0 < st.missingPoints then
    match extraLoop env (if env.isMobile then 20 else 50) fuel
        ⟨st.run, st.missingPoints, st.maxLoop, 0, 0, allQ⟩ with
    | .error => .error
    | .fuelOut => .fuelOut
    | .earlyReturn s => .finished s.missingPoints s.run
    | .done s =>
        if 0 < s.missingPoints ∧ ¬env.isMobile then
          match env.getSearchPoints s.run.fetchIdx with
          | .ok _ => .finished s.missingPoints (fetchBump s.run)
          | .error _ => .error
        else .finished s.missingPoints s.run
  else .finished st.missingPoints st.run

/-- `Search.doSearch` (source lines 1285-1673).  The unguarded awaits before
the loop — `getLatestTab` (line 1288), the initial progress fetch
(line 1290) and the `page.goto` navigation (line 1322) — surface as `.error`
when the corresponding oracle fails; the early return on an already-met
quota is line 1309; planning, one global shuffle and `Set` dedup are lines
1313-1317; the query flattening is lines 1338-1346; then the primary loop
runs followed by `afterMainLoop`. -/
def doSearch (env : Env) (fuel : Nat) : DoSearchRes :=
  if ¬env.latestTabOk then .error
  else
    match env.getSearchPoints 0 with
    | .error _ => .error
    | .ok counters =>
        if calculatePoints env.isMobile counters = 0 then
          .alreadyCompleted (fetchBump initRunState)
        else
          if ¬env.gotoOk then .error
          else
            match jsSetDedup (env.shuffle env.diversifiedQueries) with
            | allQ =>
                match mainLoop env (flattenQueries env.isMobile allQ)
                    ⟨{ fetchBump initRunState with timeIdx := 1, waitMs := 2000 },
                     calculatePoints env.isMobile counters, 0, 0, 0, 0, none,
                     env.now 0⟩ with
                | .error => .error
                | .exhausted st => afterMainLoop env fuel allQ st
                | .timeout st => afterMainLoop env fuel allQ st
                | .completed st => afterMainLoop env fuel allQ st
                | .completedFinal st => afterMainLoop env fuel allQ st
                | .aborted st => afterMainLoop env fuel allQ st

/-- A `Counters` value with a single mobile counter. -/
def mobileCounters (earned maxPts : Int) : Counters := ⟨[], [⟨earned, maxPts⟩], [], [], []⟩

/-- A benign concrete environment used to instantiate the claims: mobile
device, every fetch succeeds with a 0/10 mobile counter, every attempt
succeeds, no contextual searches, no related terms. -/
def baseEnv : Env where
  isMobile := true
  getSearchPoints := fun _ => .ok (mobileCounters 0 10)
  bingEvent := fun _ => .success
  now := fun _ => 0
  rand := fun _ => 0
  useContextual := fun _ => false
  contextQueries := fun _ _ => []
  uaRefreshOk := fun _ => true
  relatedTerms := fun _ => []
  additionalQueries := fun _ => []
  diversifiedQueries := []
  shuffle := id
  latestTabOk := true
  gotoOk := true

/-- The loop state carried by a non-error step result, if any.  (Observer
used to state concrete facts without forcing the `ℚ` wait accounting, whose
`Rat` arithmetic the kernel cannot reduce.) -/
def stepStateOf : StepRes → Option LoopState
  | .next s => some s
  | .timeout s => some s
  | .completed s => some s
  | .completedFinal s => some s
  | .aborted s => some s
  | .error => none

/-- Whether a step result continues the loop normally. -/
def isNext : StepRes → Bool
  | .next _ => true
  | _ => false

/-- Whether a step result is the completion break (line 1481). -/
def isCompleted : StepRes → Bool
  | .completed _ => true
  | _ => false

/-- Any attempt whose computed deficit differs from the tracked one — gain or
increase alike — takes the `else` branch of lines 1461-1464: the stall counter
resets, the query is remembered, the new deficit is adopted, and (when it is
non-zero) the iteration falls through to the smart delay. -/
theorem stallBranch_changed (env : Env) (q : String) (st : LoopState) (nm : Int)
    (hne : nm ≠ st.missingPoints) (h0 : nm ≠ 0) :
    stallBranch env q st nm =
      StepRes.next { st with
                     missingPoints := nm,
                     maxLoop := 0,
                     lastSuccessfulQuery := some q,
                     run := { st.run with
                              randIdx := st.run.randIdx + 1,
                              waitMs := st.run.waitMs +
                                getSmartSearchDelay env.isMobile st.run.pace
                                  (env.rand st.run.randIdx) } } := by
  simp only [stallBranch, if_neg hne, mainStepTail]
  simp only [if_neg h0]
  simp

/-- Claim C5 (amended): the loop assigns every freshly computed deficit to
`missingPoints` unconditionally — a snapshot reporting a larger deficit
raises the tracked deficit and resets the stall counter like any change; no
monotonicity guard exists.  For any non-zero new value different from the
current one, the iteration continues normally with the adopted value. -/
theorem c5_deficit_follows_snapshot (env : Env) (q : String) (st : LoopState) (nm : Int)
    (hne : nm ≠ st.missingPoints) (h0 : nm ≠ 0) :
    stallBranch env q st nm =
      StepRes.next { st with
                     missingPoints := nm,
                     maxLoop := 0,
                     lastSuccessfulQuery := some q,
                     run := { st.run with
                              randIdx := st.run.randIdx + 1,
                              waitMs := st.run.waitMs +
                                getSmartSearchDelay env.isMobile st.run.pace
                                  (env.rand st.run.randIdx) } } :=
  stallBranch_changed env q st nm hne h0

/-- Claim C5, counterexample: with a tracked deficit of 5, a snapshot
computing a deficit of 8 makes the engine adopt 8 (the deficit increases)
and reset the stall counter to 0 — it is not treated as `NoChange` and the
deficit is not kept from rising. -/
theorem c5_counterexample :
    isNext (stallBranch baseEnv "q" ⟨initRunState, 5, 2, 0, 0, 0, none, 0⟩ 8) = true ∧
      (stepStateOf (stallBranch baseEnv "q" ⟨initRunState, 5, 2, 0, 0, 0, none, 0⟩ 8)).map
        LoopState.missingPoints = some 8 ∧
      (stepStateOf (stallBranch baseEnv "q" ⟨initRunState, 5, 2, 0, 0, 0, none, 0⟩ 8)).map
        LoopState.maxLoop = some 0 := by
  decide

/-- Claim C5, witness: the amended theorem instantiated at a concrete state
with an increased snapshot deficit. -/
theorem c5_witness :
    (9 : Int) ≠ (4 : Int) ∧ (9 : Int) ≠ 0 ∧
      stallBranch baseEnv "w" ⟨initRunState, 4, 1, 0, 0, 0, none, 0⟩ 9 =
        StepRes.next { (⟨initRunState, 4, 1, 0, 0, 0, none, 0⟩ : LoopState) with
                       missingPoints := 9,
                       maxLoop := 0,
                       lastSuccessfulQuery := some "w",
                       run := { initRunState with
                                randIdx := 1,
                                waitMs := initRunState.waitMs +
                                  getSmartSearchDelay baseEnv.isMobile initRunState.pace
                                    (baseEnv.rand 0) } } :=
  ⟨by decide, by decide,
    c5_deficit_follows_snapshot baseEnv "w" ⟨initRunState, 4, 1, 0, 0, 0, none, 0⟩ 9
      (by decide) (by decide)⟩

/-- Claim C6 (amended): the stall counter resets to 0 immediately after any
attempt whose computed deficit *differs* from the tracked one — decreases
(`Gained`) and increases alike — regardless of the prior counter value; it is
incremented exactly on an unchanged deficit (here below the special
thresholds, so that no force-check or recovery path interferes). -/
theorem c6_stall_reset_rules (env : Env) (q : String) (st : LoopState) (nm : Int) :
    (nm < st.missingPoints → nm ≠ 0 →
      stallBranch env q st nm =
        StepRes.next { st with
                       missingPoints := nm,
                       maxLoop := 0,
                       lastSuccessfulQuery := some q,
                       run := { st.run with
                                randIdx := st.run.randIdx + 1,
                                waitMs := st.run.waitMs +
                                  getSmartSearchDelay env.isMobile st.run.pace
                                    (env.rand st.run.randIdx) } }) ∧
    (st.missingPoints < nm → nm ≠ 0 →
      stallBranch env q st nm =
        StepRes.next { st with
                       missingPoints := nm,
                       maxLoop := 0,
                       lastSuccessfulQuery := some q,
                       run := { st.run with
                                randIdx := st.run.randIdx + 1,
                                waitMs := st.run.waitMs +
                                  getSmartSearchDelay env.isMobile st.run.pace
                                    (env.rand st.run.randIdx) } }) ∧
    (nm = st.missingPoints → nm ≠ 0 → st.maxLoop + 1 < 3 →
      stallBranch env q st nm =
        StepRes.next { st with
                       maxLoop := st.maxLoop + 1,
                       run := { st.run with
                                randIdx := st.run.randIdx + 1,
                                waitMs := st.run.waitMs +
                                  getSmartSearchDelay env.isMobile st.run.pace
                                    (env.rand st.run.randIdx) } }) := by
  refine ⟨?_, ?_, ?_⟩
  · intro hlt h0
    exact stallBranch_changed env q st nm (by omega) h0
  · intro hgt h0
    exact stallBranch_changed env q st nm (by omega) h0
  · intro heq h0 hsmall
    subst heq
    have hc : st.missingPoints = st.missingPoints := rfl
    have h3 : ¬ (st.maxLoop + 1 = 3) := by omega
    have h5 : ¬ (st.maxLoop + 1 = 5) := by omega
    have h8 : ¬ (¬ env.isMobile = true ∧ st.maxLoop + 1 = 8) := by
      rintro ⟨-, hcc⟩
      omega
    simp only [stallBranch, if_pos hc, if_neg h3, if_neg h5, if_neg h8]
    simp only [mainStepTail]
    have hml5 : ¬ (5 < st.maxLoop + 1 ∧ env.isMobile = true) := by
      rintro ⟨hcc, -⟩
      omega
    have hlim : ¬ ((if env.isMobile then 10 else 15) < st.maxLoop + 1) := by
      cases env.isMobile <;> simp <;> omega
    simp only [if_neg h0, if_neg hml5, if_neg hlim]
    simp

/-- Claim C6, counterexample: an attempt whose snapshot *raises* the deficit
from 7 to 9 (not a `Gained` outcome) still resets the stall counter from 4
to 0 — the counter is not reset only on `Gained`. -/
theorem c6_counterexample :
    (stepStateOf (stallBranch baseEnv "p" ⟨initRunState, 7, 4, 0, 0, 0, none, 0⟩ 9)).map
      LoopState.maxLoop = some 0 ∧
    ¬ ((9 : Int) < 7) := by
  decide

/-- Claim C6, witness: the reset on a `Gained` attempt with prior counter 7,
and the increment on a `NoChange` attempt. -/
theorem c6_witness :
    ((3 : Int) < 10 ∧ (3 : Int) ≠ 0 ∧
      stallBranch baseEnv "g" ⟨initRunState, 10, 7, 0, 0, 0, none, 0⟩ 3 =
        StepRes.next { (⟨initRunState, 10, 7, 0, 0, 0, none, 0⟩ : LoopState) with
                       missingPoints := 3,
                       maxLoop := 0,
                       lastSuccessfulQuery := some "g",
                       run := { initRunState with
                                randIdx := 1,
                                waitMs := initRunState.waitMs +
                                  getSmartSearchDelay baseEnv.isMobile initRunState.pace
                                    (baseEnv.rand 0) } }) ∧
    ((6 : Int) = 6 ∧ (6 : Int) ≠ 0 ∧ 1 + 1 < 3 ∧
      stallBranch baseEnv "n" ⟨initRunState, 6, 1, 0, 0, 0, none, 0⟩ 6 =
        StepRes.next { (⟨initRunState, 6, 1, 0, 0, 0, none, 0⟩ : LoopState) with
                       maxLoop := 2,
                       run := { initRunState with
                                randIdx := 1,
                                waitMs := initRunState.waitMs +
                                  getSmartSearchDelay baseEnv.isMobile initRunState.pace
                                    (baseEnv.rand 0) } }) :=
  ⟨⟨by decide, by decide,
    (c6_stall_reset_rules baseEnv "g" ⟨initRunState, 10, 7, 0, 0, 0, none, 0⟩ 3).1
      (by decide) (by decide)⟩,
   ⟨rfl, by decide, by decide,
    (c6_stall_reset_rules baseEnv "n" ⟨initRunState, 6, 1, 0, 0, 0, none, 0⟩ 6).2.2
      rfl (by decide) (by decide)⟩⟩

/-- Claim C4 (amended): on a `NoChange` attempt, (a) the stall counter
reaching 3 performs the forced out-of-band progress re-fetch before
continuing (and adopts a differing value, resetting the counter); (b)
reaching 5 adds the fixed 30 s extra wait on top of the smart delay; (c) on
desktop, crossing the hard limit 15 aborts the primary search phase; (d) on
mobile the counter is intercepted as soon as it exceeds 5 by the
User-Agent-refresh recovery, which resets it to 0 and continues the loop —
so the mobile hard limit 10 of the code is never crossed and never aborts. -/
theorem c4_stall_thresholds (env : Env) (q : String) (st : LoopState) (c : Counters) :
    (st.maxLoop = 2 → env.getSearchPoints st.run.fetchIdx = Except.ok c →
      calculatePoints env.isMobile c ≠ st.missingPoints →
      stallBranch env q st st.missingPoints =
        StepRes.next { st with
                       maxLoop := 0,
                       missingPoints := calculatePoints env.isMobile c,
                       run := fetchBump st.run }) ∧
    (st.maxLoop = 4 → st.missingPoints ≠ 0 →
      stallBranch env q st st.missingPoints =
        StepRes.next { st with
                       maxLoop := 5,
                       run := { st.run with
                                randIdx := st.run.randIdx + 1,
                                waitMs := st.run.waitMs + 30000 +
                                  getSmartSearchDelay env.isMobile st.run.pace
                                    (env.rand st.run.randIdx) } }) ∧
    (env.isMobile = false → st.maxLoop = 15 → st.missingPoints ≠ 0 →
      env.getSearchPoints st.run.fetchIdx = Except.error () →
      stallBranch env q st st.missingPoints =
        StepRes.aborted { st with
                          maxLoop := 0,
                          run := fetchBump { st.run with
                                             waitMs := st.run.waitMs + 5000 } }) ∧
    (env.isMobile = true → 5 < st.maxLoop → st.missingPoints ≠ 0 →
      stallBranch env q st st.missingPoints =
        StepRes.next { st with
                       maxLoop := 0,
                       run := { st.run with
                                uaIdx := st.run.uaIdx + 1,
                                waitMs := st.run.waitMs +
                                  (if env.uaRefreshOk st.run.uaIdx then 30000
                                   else 180000) } }) := by
  have hc : st.missingPoints = st.missingPoints := rfl
  refine ⟨?_, ?_, ?_, ?_⟩
  · intro hml hfetch hne
    have h3 : st.maxLoop + 1 = 3 := by omega
    simp only [stallBranch, if_pos hc, if_pos h3, hfetch, if_pos hne]
    simp
  · intro hml h0
    have h3 : ¬ (st.maxLoop + 1 = 3) := by omega
    have h5 : st.maxLoop + 1 = 5 := by omega
    simp only [stallBranch, if_pos hc, if_neg h3, if_pos h5]
    simp only [mainStepTail]
    have hml5 : ¬ (5 < st.maxLoop + 1 ∧ env.isMobile = true) := by
      rintro ⟨hcc, -⟩
      omega
    have hlim : ¬ ((if env.isMobile then 10 else 15) < st.maxLoop + 1) := by
      cases env.isMobile <;> simp <;> omega
    simp only [if_neg h0, if_neg hml5, if_neg hlim]
    simp [hml]
  · intro hmob hml h0 hfetch
    have h3 : ¬ (st.maxLoop + 1 = 3) := by omega
    have h5 : ¬ (st.maxLoop + 1 = 5) := by omega
    have h8 : ¬ (¬ env.isMobile = true ∧ st.maxLoop + 1 = 8) := by
      rintro ⟨-, hcc⟩
      omega
    simp only [stallBranch, if_pos hc, if_neg h3, if_neg h5, if_neg h8]
    simp only [mainStepTail]
    have hml5 : ¬ (5 < st.maxLoop + 1 ∧ env.isMobile = true) := by
      rintro ⟨-, hcc⟩
      rw [hmob] at hcc
      cases hcc
    have hlim : (if env.isMobile then 10 else 15) < st.maxLoop + 1 := by
      rw [hmob]
      simp
      omega
    simp only [if_neg h0, if_neg hml5, if_pos hlim, hfetch]
    simp
  · intro hmob hgt h0
    have h3 : ¬ (st.maxLoop + 1 = 3) := by omega
    have h5 : ¬ (st.maxLoop + 1 = 5) := by omega
    have h8 : ¬ (¬ env.isMobile = true ∧ st.maxLoop + 1 = 8) := by
      rintro ⟨hcc, -⟩
      rw [hmob] at hcc
      exact hcc rfl
    simp only [stallBranch, if_pos hc, if_neg h3, if_neg h5, if_neg h8]
    simp only [mainStepTail]
    have hml5 : 5 < st.maxLoop + 1 ∧ env.isMobile = true := ⟨by omega, hmob⟩
    simp only [if_neg h0, if_pos hml5]
    simp

/-- Claim C4, counterexample: on mobile, a `NoChange` attempt at stall
counter 10 (crossing the claimed mobile hard limit) does *not* leave the
loop for recovery — the `maxLoop > 5` mobile branch resets the counter to 0
and the loop continues normally. -/
theorem c4_counterexample :
    isNext (stallBranch baseEnv "q" ⟨initRunState, 5, 10, 0, 0, 0, none, 0⟩ 5) = true ∧
      (stepStateOf (stallBranch baseEnv "q"
          ⟨initRunState, 5, 10, 0, 0, 0, none, 0⟩ 5)).map
        LoopState.maxLoop = some 0 := by
  decide

/-- Claim C4, witness: the four threshold behaviours at concrete states —
forced re-fetch at 3, extra 30 s wait at 5, desktop abort crossing 15, and
the mobile reset-and-continue above 5. -/
theorem c4_witness :
    (stallBranch baseEnv "a" ⟨initRunState, 4, 2, 0, 0, 0, none, 0⟩ 4 =
      StepRes.next { (⟨initRunState, 4, 2, 0, 0, 0, none, 0⟩ : LoopState) with
                     maxLoop := 0,
                     missingPoints := 10,
                     run := fetchBump initRunState }) ∧
    (stallBranch baseEnv "b" ⟨initRunState, 4, 4, 0, 0, 0, none, 0⟩ 4 =
      StepRes.next { (⟨initRunState, 4, 4, 0, 0, 0, none, 0⟩ : LoopState) with
                     maxLoop := 5,
                     run := { initRunState with
                              randIdx := 1,
                              waitMs := initRunState.waitMs + 30000 +
                                getSmartSearchDelay baseEnv.isMobile initRunState.pace
                                  (baseEnv.rand 0) } }) ∧
    (stallBranch { baseEnv with
                   isMobile := false,
                   getSearchPoints := fun _ => .error () } "d"
        ⟨initRunState, 4, 15, 0, 0, 0, none, 0⟩ 4 =
      StepRes.aborted { (⟨initRunState, 4, 15, 0, 0, 0, none, 0⟩ : LoopState) with
                        maxLoop := 0,
                        run := fetchBump { initRunState with
                                           waitMs := initRunState.waitMs + 5000 } }) ∧
    (stallBranch baseEnv "m" ⟨initRunState, 4, 9, 0, 0, 0, none, 0⟩ 4 =
      StepRes.next { (⟨initRunState, 4, 9, 0, 0, 0, none, 0⟩ : LoopState) with
                     maxLoop := 0,
                     run := { initRunState with
                              uaIdx := 1,
                              waitMs := initRunState.waitMs +
                                (if baseEnv.uaRefreshOk 0 then 30000
                                 else 180000) } }) :=
  ⟨(c4_stall_thresholds baseEnv "a" ⟨initRunState, 4, 2, 0, 0, 0, none, 0⟩
      (mobileCounters 0 10)).1 rfl rfl (by decide),
   (c4_stall_thresholds baseEnv "b" ⟨initRunState, 4, 4, 0, 0, 0, none, 0⟩
      emptyCounters).2.1 rfl (by decide),
   (c4_stall_thresholds { baseEnv with
      isMobile := false,
      getSearchPoints := fun _ => .error () } "d"
      ⟨initRunState, 4, 15, 0, 0, 0, none, 0⟩ emptyCounters).2.2.1 rfl rfl
      (by decide) rfl,
   (c4_stall_thresholds baseEnv "m" ⟨initRunState, 4, 9, 0, 0, 0, none, 0⟩
      emptyCounters).2.2.2 rfl (by decide) (by decide)⟩

/-- Claim C10 (amended): the unrecoverable-failure fallback
`getEmptySearchCounters` first re-attempts a real progress fetch and returns
the all-empty `Counters` only when that fetch also fails; for the all-empty
value `calculatePoints` computes 0 on both device classes, and a loop
iteration whose freshly computed deficit is 0 (while the tracked deficit was
non-zero) exits through the completion branch — after its verification
fetch — exactly like a genuinely completed quota. -/
theorem c10_empty_fallback (env : Env) (r : RunState) (m : Bool) (q : String)
    (st : LoopState) (c : Counters) :
    (env.getSearchPoints r.fetchIdx = Except.error () →
      getEmptySearchCounters env r = (fetchBump r, emptyCounters)) ∧
    calculatePoints m emptyCounters = 0 ∧
    (st.missingPoints ≠ 0 → env.getSearchPoints st.run.fetchIdx = Except.ok c →
      stallBranch env q st 0 =
        StepRes.completed { st with
                            missingPoints := 0,
                            maxLoop := 0,
                            lastSuccessfulQuery := some q,
                            run := fetchBump { st.run with
                                               waitMs := st.run.waitMs + 2000 } }) := by
  refine ⟨?_, ?_, ?_⟩
  · intro hfetch
    simp only [getEmptySearchCounters, hfetch]
  · cases m <;> rfl
  · intro h0 hfetch
    have hne : (0 : Int) ≠ st.missingPoints := fun hcc => h0 hcc.symm
    simp only [stallBranch, if_neg hne, mainStepTail]
    have hz : (0 : Int) = 0 := rfl
    simp only [if_pos hz, hfetch]
    simp

/-- Claim C10, counterexample: with the browser reported closed on the first
attempt (an unrecoverable failure), `bingSearch` does *not* return a
`Counters` value with all arrays empty — its fallback re-fetch succeeded and
returned the live (non-empty) counters. -/
theorem c10_counterexample :
    (bingSearch { baseEnv with bingEvent := fun _ => .errBrowserClosed }
        initRunState).2 = mobileCounters 0 10 ∧
      mobileCounters 0 10 ≠ emptyCounters := by
  decide

/-- Claim C10, witness: the empty fallback under a failing re-fetch, the zero
deficit of the empty counters, and the completion-branch exit at a concrete
state. -/
theorem c10_witness :
    (getEmptySearchCounters { baseEnv with getSearchPoints := fun _ => .error () }
        initRunState = (fetchBump initRunState, emptyCounters)) ∧
    calculatePoints true emptyCounters = 0 ∧
    (stallBranch baseEnv "z" ⟨initRunState, 10, 0, 0, 0, 0, none, 0⟩ 0 =
      StepRes.completed { (⟨initRunState, 10, 0, 0, 0, 0, none, 0⟩ : LoopState) with
                          missingPoints := 0,
                          maxLoop := 0,
                          lastSuccessfulQuery := some "z",
                          run := fetchBump { initRunState with
                                             waitMs := initRunState.waitMs + 2000 } }) :=
  ⟨(c10_empty_fallback { baseEnv with getSearchPoints := fun _ => .error () }
      initRunState true "z" ⟨initRunState, 10, 0, 0, 0, 0, none, 0⟩ emptyCounters).1 rfl,
   (c10_empty_fallback baseEnv initRunState true "z"
      ⟨initRunState, 10, 0, 0, 0, 0, none, 0⟩ emptyCounters).2.1,
   (c10_empty_fallback baseEnv initRunState true "z"
      ⟨initRunState, 10, 0, 0, 0, 0, none, 0⟩ (mobileCounters 0 10)).2.2
      (by decide) rfl⟩

/-- The `bingSearch` retry loop reads only the `getSearchPoints` and
`bingEvent` oracles: two environments agreeing on those behave
identically. -/
theorem bingSearchAux_env_congr (e1 e2 : Env)
    (hgs : e1.getSearchPoints = e2.getSearchPoints)
    (hbe : e1.bingEvent = e2.bingEvent) :
    ∀ (n i : Nat) (s : RunState), bingSearchAux e1 n i s = bingSearchAux e2 n i s := by
  obtain ⟨im1, gsp1, be1, nw1, rd1, uc1, cq1, ua1, rt1, aq1, dq1, sh1, lt1, gt1⟩ := e1
  obtain ⟨im2, gsp2, be2, nw2, rd2, uc2, cq2, ua2, rt2, aq2, dq2, sh2, lt2, gt2⟩ := e2
  simp only at hgs hbe
  subst hgs hbe
  intro n
  induction n with
  | zero => intro i s; rfl
  | succ n ih =>
      intro i s
      simp only [bingSearchAux]
      cases hev : be1 s.bingIdx <;> dsimp only <;>
        first
          | (split_ifs <;> first | rfl | apply ih)
          | rfl

/-- `bingSearch` under two environments agreeing on its oracles. -/
theorem bingSearch_env_congr (e1 e2 : Env)
    (hgs : e1.getSearchPoints = e2.getSearchPoints)
    (hbe : e1.bingEvent = e2.bingEvent) (s : RunState) :
    bingSearch e1 s = bingSearch e2 s := by
  simp only [bingSearch, bingSearchAux_env_congr e1 e2 hgs hbe]

/-- The inner related-terms loop reads only the device class and the
`bingSearch` oracles. -/
theorem extraInner_env_congr (e1 e2 : Env)
    (him : e1.isMobile = e2.isMobile)
    (hgs : e1.getSearchPoints = e2.getSearchPoints)
    (hbe : e1.bingEvent = e2.bingEvent) (maxExtra : Nat) :
    ∀ (terms : List String) (s : ExtraState),
      extraInner e1 maxExtra terms s = extraInner e2 maxExtra terms s := by
  have hbsc := bingSearch_env_congr e1 e2 hgs hbe
  obtain ⟨im1, gsp1, be1, nw1, rd1, uc1, cq1, ua1, rt1, aq1, dq1, sh1, lt1, gt1⟩ := e1
  obtain ⟨im2, gsp2, be2, nw2, rd2, uc2, cq2, ua2, rt2, aq2, dq2, sh2, lt2, gt2⟩ := e2
  simp only at him hgs hbe
  subst him hgs hbe
  intro terms
  induction terms with
  | nil => intro s; rfl
  | cons t rest ih =>
      intro s
      simp only [extraInner, hbsc]
      split_ifs <;> first | rfl | apply ih

/-- The extra-search `while` loop reads only the device class, the
`bingSearch` oracles, the related-terms oracle and the additional-queries
oracle — in particular it never reads the clock (`now`), the substance of
the amended claim C7. -/
theorem extraLoop_env_congr (e1 e2 : Env)
    (him : e1.isMobile = e2.isMobile)
    (hgs : e1.getSearchPoints = e2.getSearchPoints)
    (hbe : e1.bingEvent = e2.bingEvent)
    (hrt : e1.relatedTerms = e2.relatedTerms)
    (haq : e1.additionalQueries = e2.additionalQueries) (maxExtra : Nat) :
    ∀ (fuel : Nat) (s : ExtraState),
      extraLoop e1 maxExtra fuel s = extraLoop e2 maxExtra fuel s := by
  have hinc := extraInner_env_congr e1 e2 him hgs hbe maxExtra
  obtain ⟨im1, gsp1, be1, nw1, rd1, uc1, cq1, ua1, rt1, aq1, dq1, sh1, lt1, gt1⟩ := e1
  obtain ⟨im2, gsp2, be2, nw2, rd2, uc2, cq2, ua2, rt2, aq2, dq2, sh2, lt2, gt2⟩ := e2
  simp only at him hgs hbe hrt haq
  subst him hgs hbe hrt haq
  intro fuel
  induction fuel with
  | zero => intro s; rfl
  | succ fuel ih =>
      intro s
      simp only [extraLoop, hinc]
      split_ifs <;>
        first
          | rfl
          | apply ih
          | (split <;> rename_i hacc <;>
              (try simp only [hacc]) <;>
              first
                | rfl
                | apply ih
                | (split_ifs <;>
                    first
                      | rfl
                      | apply ih
                      | (split <;> rename_i s3 hii <;> (try simp only [hii]) <;>
                          split_ifs <;> first | rfl | apply ih)))

/-- Claim C7 (amended): the wall-clock budget is enforced by the check at
the top of each primary-loop iteration only — (i) once the 20-minute budget
has elapsed, a primary-loop iteration breaks out with `timeout` immediately,
starting no attempt and changing nothing but the consumed clock reading;
(ii) the extra-search loop performs no budget check at all: its behaviour is
identical under an arbitrary replacement of the `Date.now()` stream. -/
theorem c7_budget_check (env : Env) :
    (∀ (q : String) (st : LoopState),
        searchTimeoutMs < env.now st.run.timeIdx - st.startTime →
          mainStep env q st =
            StepRes.timeout { st with
                              run := { st.run with
                                       timeIdx := st.run.timeIdx + 1 } }) ∧
    (∀ (f : Nat → Int) (maxExtra fuel : Nat) (s : ExtraState),
        extraLoop { env with now := f } maxExtra fuel s =
          extraLoop env maxExtra fuel s) := by
  constructor
  · intro q st h
    simp only [mainStep, if_pos h]
  · intro f maxExtra fuel s
    exact extraLoop_env_congr { env with now := f } env rfl rfl rfl rfl rfl
      maxExtra fuel s

/-- The number of `bingSearch` invocations recorded in a final `doSearch`
result, if one is available. -/
def resultBingCalls : DoSearchRes → Option Nat
  | .alreadyCompleted r => some r.bingCalls
  | .finished _ r => some r.bingCalls
  | .error => none
  | .fuelOut => none

/-- An environment whose clock jumps past the 20-minute budget right after
the start-of-run reading, with one planned query and plenty of related
terms. -/
def envTimeout : Env :=
  { baseEnv with
    now := fun k => if k = 0 then 0 else 1300000,
    relatedTerms := fun _ => ["t0", "t1", "t2", "t3"],
    diversifiedQueries := [.str "q1"],
    getSearchPoints := fun k =>
      if k = 0 then .ok (mobileCounters 0 10) else .ok (mobileCounters 10 10) }

/-- Claim C7, counterexample: with the budget already elapsed at the first
top-of-loop check (the clock reads 1 300 000 ms past the start, beyond the
20-minute budget), the primary loop starts no attempt — yet `doSearch` still
starts a supplementary attempt in the extra-search phase (one `bingSearch`
call is recorded), so "no new attempt is ever started in either loop" fails
for the extra loop. -/
theorem c7_counterexample :
    searchTimeoutMs < envTimeout.now 1 - envTimeout.now 0 ∧
      resultBingCalls (doSearch envTimeout 2) = some 1 := by
  decide

/-- Claim C7, witness: part (i) at a concrete over-budget state and part (ii)
at a concrete clock replacement. -/
theorem c7_witness :
    (searchTimeoutMs < envTimeout.now 1 - (0 : Int) ∧
      mainStep envTimeout "w" ⟨{ initRunState with timeIdx := 1 }, 10, 0, 0, 0, 0, none, 0⟩ =
        StepRes.timeout ⟨{ initRunState with timeIdx := 2 }, 10, 0, 0, 0, 0, none, 0⟩) ∧
    extraLoop { envTimeout with now := fun _ => 0 } 20 1 ⟨initRunState, 10, 0, 0, 0, []⟩ =
      extraLoop envTimeout 20 1 ⟨initRunState, 10, 0, 0, 0, []⟩ :=
  ⟨⟨by decide,
    (c7_budget_check envTimeout).1 "w"
      ⟨{ initRunState with timeIdx := 1 }, 10, 0, 0, 0, 0, none, 0⟩ (by decide)⟩,
   (c7_budget_check envTimeout).2 (fun _ => 0) 20 1 ⟨initRunState, 10, 0, 0, 0, []⟩⟩

set_option linter.unnecessarySeqFocus false

/-- The inner related-terms loop never pushes `extraSearchCount` beyond the
budget: each supplementary attempt is guarded by the `break` at line 1615. -/
theorem extraInner_count_le (env : Env) (maxExtra : Nat) :
    ∀ (terms : List String) (s : ExtraState), s.extraSearchCount ≤ maxExtra →
      (∀ s', extraInner env maxExtra terms s = InnerRes.cont s' →
        s'.extraSearchCount ≤ maxExtra) ∧
      (∀ s', extraInner env maxExtra terms s = InnerRes.earlyReturn s' →
        s'.extraSearchCount ≤ maxExtra) := by
  intro terms
  induction terms with
  | nil =>
      intro s hs
      exact ⟨fun s' h => by cases h; exact hs, fun s' h => by cases h⟩
  | cons t rest ih =>
      intro s hs
      simp only [extraInner]
      split_ifs <;>
        first
          | exact ih _ (show s.extraSearchCount + 1 ≤ maxExtra by omega)
          | (refine ⟨fun s' h => ?_, fun s' h => ?_⟩ <;>
              first
                | (cases h; exact show s.extraSearchCount ≤ maxExtra by omega)
                | (cases h; exact show s.extraSearchCount + 1 ≤ maxExtra by omega)
                | cases h)

/-- Claim C9 (amended): the supplementary phase performs at most `maxExtra`
attempts — 20 on mobile, 50 on desktop, as instantiated by `doSearch` —
whenever it terminates (normally or through the `return` at line 1641); the
loop's exits are deficit 0, budget exhaustion and a stall counter above 5,
but termination itself is *not* guaranteed (see the counterexample: with no
related terms available it draws fresh queries forever). -/
theorem c9_extra_attempt_budget (env : Env) (maxExtra fuel : Nat) (s : ExtraState)
    (hs : s.extraSearchCount ≤ maxExtra) :
    (∀ s', extraLoop env maxExtra fuel s = ExtraRes.done s' →
      s'.extraSearchCount ≤ maxExtra) ∧
    (∀ s', extraLoop env maxExtra fuel s = ExtraRes.earlyReturn s' →
      s'.extraSearchCount ≤ maxExtra) := by
  induction fuel generalizing s with
  | zero => exact ⟨(fun s' h => by cases h), (fun s' h => by cases h)⟩
  | succ fuel ih =>
      have key : ∀ (s' : ExtraState),
          (extraLoop env maxExtra (fuel + 1) s = ExtraRes.done s' ∨
            extraLoop env maxExtra (fuel + 1) s = ExtraRes.earlyReturn s') →
          s'.extraSearchCount ≤ maxExtra := by
        intro s' hor
        rcases hor with h | h <;>
        · simp only [extraLoop] at h
          split_ifs at h <;>
            first
              | (cases h; exact show s.extraSearchCount ≤ maxExtra by omega)
              | cases h
              | (split at h <;>
                  first
                    | cases h
                    | (rename_i q hacc
                       split_ifs at h <;>
                         first
                           | (cases h; exact show s.extraSearchCount ≤ maxExtra by omega)
                           | cases h
                           | (refine (ih _ ?_).1 s' h
                              exact show s.extraSearchCount ≤ maxExtra by omega)
                           | (refine (ih _ ?_).2 s' h
                              exact show s.extraSearchCount ≤ maxExtra by omega)
                           | (split at h <;>
                              · rename_i hii
                                first
                                  | (split_ifs at h <;>
                                      first
                                        | (cases h
                                           first
                                             | (refine (extraInner_count_le env maxExtra
                                                  _ _ ?_).1 _ hii
                                                exact show s.extraSearchCount ≤ maxExtra
                                                  by omega)
                                             | (refine (extraInner_count_le env maxExtra
                                                  _ _ ?_).2 _ hii
                                                exact show s.extraSearchCount ≤ maxExtra
                                                  by omega))
                                        | cases h
                                        | (refine (ih _ ?_).1 s' h
                                           first
                                             | (refine (extraInner_count_le env maxExtra
                                                  _ _ ?_).1 _ hii
                                                exact show s.extraSearchCount ≤ maxExtra
                                                  by omega)
                                             | (refine (extraInner_count_le env maxExtra
                                                  _ _ ?_).2 _ hii
                                                exact show s.extraSearchCount ≤ maxExtra
                                                  by omega))
                                        | (refine (ih _ ?_).2 s' h
                                           first
                                             | (refine (extraInner_count_le env maxExtra
                                                  _ _ ?_).1 _ hii
                                                exact show s.extraSearchCount ≤ maxExtra
                                                  by omega)
                                             | (refine (extraInner_count_le env maxExtra
                                                  _ _ ?_).2 _ hii
                                                exact show s.extraSearchCount ≤ maxExtra
                                                  by omega)))
                                  | (cases h
                                     first
                                       | (refine (extraInner_count_le env maxExtra
                                            _ _ ?_).1 _ hii
                                          exact show s.extraSearchCount ≤ maxExtra by omega)
                                       | (refine (extraInner_count_le env maxExtra
                                            _ _ ?_).2 _ hii
                                          exact show s.extraSearchCount ≤ maxExtra by omega))
                                  | cases h)))
      exact ⟨fun s' h => key s' (Or.inl h), fun s' h => key s' (Or.inr h)⟩

/-- Termination of the extra-search loop for a given environment and start
state: some fuel suffices for the model to leave the loop. -/
def ExtraLoopTerminates (env : Env) (maxExtra : Nat) (s : ExtraState) : Prop :=
  ∃ fuel, extraLoop env maxExtra fuel s ≠ ExtraRes.fuelOut

/-- An environment whose related-terms lookups always come back empty while
the additional-query generator keeps supplying fresh queries. -/
def envNoTerms : Env :=
  { baseEnv with additionalQueries := fun _ => [SearchQuery.str "x"] }

/-- Under `envNoTerms` the extra-search loop runs forever: every drawn query
has no related terms, so no attempt is ever performed, the deficit and the
attempt budget never move, and the loop keeps drawing fresh queries. -/
theorem extraLoop_envNoTerms_spins :
    ∀ (fuel : Nat) (s : ExtraState), s.missingPoints = 10 → s.extraSearchCount = 0 →
      s.i ≤ s.allQueries.length →
      extraLoop envNoTerms 20 fuel s = ExtraRes.fuelOut := by
  have hrt : ∀ t, envNoTerms.relatedTerms t = [] := fun _ => rfl
  have hadd : ∀ k, envNoTerms.additionalQueries k = [SearchQuery.str "x"] := fun _ => rfl
  intro fuel
  induction fuel with
  | zero => intro s _ _ _; rfl
  | succ fuel ih =>
      intro s hm hc hi
      have hgd : 0 < s.missingPoints ∧ s.extraSearchCount < 20 := by
        rw [hm, hc]
        norm_num
      have h0 : ¬ (s.missingPoints = 0) := by
        rw [hm]
        norm_num
      simp only [extraLoop, if_pos hgd, hadd, hrt, List.length_nil]
      rw [if_neg (show ¬ (3 : ℕ) < 0 by norm_num)]
      by_cases hpush : s.allQueries.length ≤ s.i
      · have hieq : s.i = s.allQueries.length := by omega
        simp only [if_pos hpush]
        have hacc : (s.allQueries ++ [SearchQuery.str "x"])[s.i]? =
            some (SearchQuery.str "x") := by
          rw [hieq]
          simp
        simp only [hacc]
        rw [if_neg h0]
        apply ih
        · exact hm
        · exact hc
        · simp only [List.length_append, List.length_cons, List.length_nil]
          omega
      · simp only [if_neg hpush]
        have hlt : s.i < s.allQueries.length := by omega
        have hacc : s.allQueries[s.i]? = some s.allQueries[s.i] :=
          List.getElem?_eq_getElem hlt
        simp only [hacc]
        rw [if_neg h0]
        apply ih
        · exact hm
        · exact hc
        · exact show s.i + 1 ≤ s.allQueries.length by omega

/-- Claim C9, counterexample: the extra-search phase does *not* terminate for
every input — when every related-terms lookup returns no terms, the loop
draws new queries forever without ever performing an attempt, reaching the
deficit-0, budget or stall exits never. -/
theorem c9_counterexample :
    ¬ ExtraLoopTerminates envNoTerms 20 ⟨initRunState, 10, 0, 0, 0, []⟩ := by
  rintro ⟨fuel, hfuel⟩
  exact hfuel (extraLoop_envNoTerms_spins fuel ⟨initRunState, 10, 0, 0, 0, []⟩
    rfl rfl (by simp))

/-- The state in which the concrete extra-search run of `c9_witness` ends. -/
def extraFinalState : ExtraState :=
  ⟨⟨initPaceState, 2, 2, 0, 0, 0, 0, 0, 0, 2, 0⟩, 0, 0, 2, 1, [SearchQuery.str "q1"]⟩

/-- Claim C9, witness: the budget bound applied to a concrete terminating
extra-search run (two supplementary attempts under the mobile budget 20). -/
theorem c9_witness :
    (⟨initRunState, 10, 0, 0, 0, [SearchQuery.str "q1"]⟩ : ExtraState).extraSearchCount ≤ 20 ∧
      extraFinalState.extraSearchCount ≤ 20 :=
  ⟨by decide,
    (c9_extra_attempt_budget envTimeout 20 2
        ⟨initRunState, 10, 0, 0, 0, [SearchQuery.str "q1"]⟩ (by decide)).1
      extraFinalState (by decide)⟩

/-- Under total progress fetches the tail of a primary-loop iteration never
returns the exception marker: its only throw site is the unguarded
completion-verification fetch (line 1473). -/
theorem mainStepTail_ne_error (env : Env) (st0 : LoopState) (nm : Int)
    (hfetch : ∀ k, ∃ c, env.getSearchPoints k = Except.ok c) :
    mainStepTail env st0 nm ≠ StepRes.error := by
  intro h
  simp only [mainStepTail] at h
  by_cases h0 : nm = 0
  · rw [if_pos h0] at h
    obtain ⟨c, hc⟩ := hfetch st0.run.fetchIdx
    rw [hc] at h
    simp at h
  · rw [if_neg h0] at h
    by_cases h2 : 5 < st0.maxLoop ∧ env.isMobile
    · rw [if_pos h2] at h
      cases h
    · rw [if_neg h2] at h
      by_cases h3 : (if env.isMobile then 10 else 15) < st0.maxLoop
      · rw [if_pos h3] at h
        obtain ⟨c, hc⟩ := hfetch st0.run.fetchIdx
        rw [hc] at h
        dsimp only at h
        split_ifs at h <;> cases h
      · rw [if_neg h3] at h
        cases h

/-- Under total progress fetches the stall bookkeeping never returns the
exception marker. -/
theorem stallBranch_ne_error (env : Env) (q : String) (st : LoopState) (nm : Int)
    (hfetch : ∀ k, ∃ c, env.getSearchPoints k = Except.ok c) :
    stallBranch env q st nm ≠ StepRes.error := by
  intro h
  simp only [stallBranch] at h
  split at h
  · split at h
    · obtain ⟨c, hc⟩ := hfetch st.run.fetchIdx
      rw [hc] at h
      dsimp only at h
      split at h
      · simp at h
      · exact mainStepTail_ne_error env _ _ hfetch h
    · split at h
      · exact mainStepTail_ne_error env _ _ hfetch h
      · split at h
        · exact mainStepTail_ne_error env _ _ hfetch h
        · exact mainStepTail_ne_error env _ _ hfetch h
  · exact mainStepTail_ne_error env _ _ hfetch h

/-- Under total progress fetches one search attempt never returns the
exception marker. -/
theorem mainStepSearch_ne_error (env : Env) (q : String) (st : LoopState)
    (hfetch : ∀ k, ∃ c, env.getSearchPoints k = Except.ok c) :
    mainStepSearch env q st ≠ StepRes.error := by
  intro h
  simp only [mainStepSearch] at h
  rcases hbs : bingSearch env st.run with ⟨r, counters⟩
  rw [hbs] at h
  exact stallBranch_ne_error env q _ _ hfetch h

/-- Under total progress fetches the contextual-substitution dispatch never
returns the exception marker. -/
theorem mainStepGo_ne_error (env : Env) (q : String) (st : LoopState)
    (hfetch : ∀ k, ∃ c, env.getSearchPoints k = Except.ok c) :
    mainStepGo env q st ≠ StepRes.error := by
  intro h
  simp only [mainStepGo] at h
  split at h
  · split at h
    · split at h
      · exact mainStepSearch_ne_error env _ _ hfetch h
      · exact mainStepSearch_ne_error env _ _ hfetch h
    · exact mainStepSearch_ne_error env _ _ hfetch h
  · exact mainStepSearch_ne_error env _ _ hfetch h

/-- Under total progress fetches one full primary-loop iteration never
returns the exception marker. -/
theorem mainStep_ne_error (env : Env) (q : String) (st : LoopState)
    (hfetch : ∀ k, ∃ c, env.getSearchPoints k = Except.ok c) :
    mainStep env q st ≠ StepRes.error := by
  intro h
  simp only [mainStep] at h
  split at h
  · simp at h
  · exact mainStepGo_ne_error env _ _ hfetch h

/-- Under total progress fetches the primary query loop never returns the
exception marker. -/
theorem mainLoop_ne_error (env : Env)
    (hfetch : ∀ k, ∃ c, env.getSearchPoints k = Except.ok c) :
    ∀ (qs : List String) (st : LoopState), mainLoop env qs st ≠ MainRes.error := by
  intro qs
  induction qs with
  | nil => intro st h; simp [mainLoop] at h
  | cons q qs ih =>
      intro st h
      simp only [mainLoop] at h
      cases hms : mainStep env q st with
      | next st1 => rw [hms] at h; exact ih st1 h
      | timeout st1 => rw [hms] at h; simp at h
      | completed st1 => rw [hms] at h; simp at h
      | completedFinal st1 => rw [hms] at h; simp at h
      | aborted st1 => rw [hms] at h; simp at h
      | error => exact mainStep_ne_error env q st hfetch hms

/-- The inner related-terms loop leaves the draw index and the query pool
unchanged: its state updates touch only the run state, the counters and the
deficit. -/
theorem extraInner_keeps (env : Env) (maxExtra : Nat) :
    ∀ (terms : List String) (s : ExtraState),
      (∀ s', extraInner env maxExtra terms s = InnerRes.cont s' →
        s'.i = s.i ∧ s'.allQueries = s.allQueries) ∧
      (∀ s', extraInner env maxExtra terms s = InnerRes.earlyReturn s' →
        s'.i = s.i ∧ s'.allQueries = s.allQueries) := by
  intro terms
  induction terms with
  | nil =>
      intro s
      exact ⟨fun s' h => by cases h; exact ⟨rfl, rfl⟩, fun s' h => by cases h⟩
  | cons t rest ih =>
      intro s
      refine ⟨fun s' h => ?_, fun s' h => ?_⟩ <;>
      · simp only [extraInner] at h
        split_ifs at h <;>
          first
            | (cases h; exact ⟨rfl, rfl⟩)
            | cases h
            | (have hk := (ih _).1 s' h
               exact hk)
            | (have hk := (ih _).2 s' h
               exact hk)

/-- With a never-empty additional-query generator the extra-search loop never
returns the exception marker: the draw index stays within the (replenished)
query pool, so the read of `allSearchQueries[i++]` (line 1608) is never
`undefined`. -/
theorem extraLoop_ne_error (env : Env) (maxExtra : Nat)
    (hadd : ∀ k, env.additionalQueries k ≠ []) :
    ∀ (fuel : Nat) (s : ExtraState), s.i ≤ s.allQueries.length →
      extraLoop env maxExtra fuel s ≠ ExtraRes.error := by
  intro fuel
  induction fuel with
  | zero => intro s _ h; cases h
  | succ fuel ih =>
      intro s hi h
      simp only [extraLoop] at h
      split at h
      · by_cases hpush : s.allQueries.length ≤ s.i
        · simp only [if_pos hpush] at h
          have hieq : s.i = s.allQueries.length := by omega
          have hlen0 : 0 < (env.additionalQueries s.run.addIdx).length :=
            List.length_pos.mpr (hadd s.run.addIdx)
          have hlt : s.i < (s.allQueries ++ env.additionalQueries s.run.addIdx).length := by
            simp only [List.length_append]
            omega
          have hacc := List.getElem?_eq_getElem hlt
          simp only [hacc] at h
          split at h
          · split at h
            · cases h
            · rename_i s3 hinner
              split at h
              · cases h
              · obtain ⟨h1, h2⟩ := (extraInner_keeps env maxExtra _ _).1 _ hinner
                refine ih _ ?_ h
                rw [h1, h2]
                exact show s.i + 1 ≤
                    (s.allQueries ++ env.additionalQueries s.run.addIdx).length by
                  simp only [List.length_append]
                  omega
          · split at h
            · cases h
            · refine ih _ ?_ h
              exact show s.i + 1 ≤
                  (s.allQueries ++ env.additionalQueries s.run.addIdx).length by
                simp only [List.length_append]
                omega
        · simp only [if_neg hpush] at h
          have hlt : s.i < s.allQueries.length := by omega
          have hacc := List.getElem?_eq_getElem hlt
          simp only [hacc] at h
          split at h
          · split at h
            · cases h
            · rename_i s3 hinner
              split at h
              · cases h
              · obtain ⟨h1, h2⟩ := (extraInner_keeps env maxExtra _ _).1 _ hinner
                refine ih _ ?_ h
                rw [h1, h2]
                exact show s.i + 1 ≤ s.allQueries.length by omega
          · split at h
            · cases h
            · refine ih _ ?_ h
              exact show s.i + 1 ≤ s.allQueries.length by omega
      · cases h

/-- Under total oracles the continuation after the primary loop never returns
the exception marker: its throw sites are the extra-loop draw (line 1611) and
the desktop logging fetch (line 1653). -/
theorem afterMainLoop_ne_error (env : Env) (fuel : Nat) (allQ : List SearchQuery)
    (st : LoopState)
    (hfetch : ∀ k, ∃ c, env.getSearchPoints k = Except.ok c)
    (hadd : ∀ k, env.additionalQueries k ≠ []) :
    afterMainLoop env fuel allQ st ≠ DoSearchRes.error := by
  intro h
  simp only [afterMainLoop] at h
  split at h
  · split at h
    · rename_i herr
      exact extraLoop_ne_error env _ hadd fuel _ (Nat.zero_le _) herr
    · cases h
    · cases h
    · rename_i s hdone
      split at h
      · obtain ⟨c, hc⟩ := hfetch s.run.fetchIdx
        rw [hc] at h
        simp at h
      · cases h
  · cases h

/-- Claim C2 (amended): `doSearch` returns normally whenever its *external*
awaits succeed — the initial `getLatestTab`, the `page.goto` navigation, and
every progress fetch (each such call outside `bingSearch` is unguarded:
lines 1288, 1290, 1322, 1473, 1653) — and the additional-query generator
never returns an empty batch (else `allSearchQueries[i++].topic` at
line 1611 reads `undefined`).  Within `bingSearch` itself failures are
indeed absorbed (at most 5 retries, then the empty-counters fallback), but
the claim's unconditional form is refuted by `c2_counterexample`. -/
theorem c2_doSearch_no_error (env : Env) (fuel : Nat)
    (htab : env.latestTabOk = true)
    (hgoto : env.gotoOk = true)
    (hfetch : ∀ k, ∃ c, env.getSearchPoints k = Except.ok c)
    (hadd : ∀ k, env.additionalQueries k ≠ []) :
    doSearch env fuel ≠ DoSearchRes.error := by
  intro h
  obtain ⟨c0, hc0⟩ := hfetch 0
  simp only [doSearch, hc0] at h
  rw [if_neg (not_not_intro htab)] at h
  by_cases hz : calculatePoints env.isMobile c0 = 0
  · rw [if_pos hz] at h
    cases h
  · rw [if_neg hz, if_neg (not_not_intro hgoto)] at h
    split at h <;>
      first
        | (rename_i heq2
           exact mainLoop_ne_error env hfetch _ _ heq2)
        | exact afterMainLoop_ne_error env fuel _ _ hfetch hadd h
        | cases h

/-- Claim C2, counterexample: a failure of the unguarded initial progress
fetch (line 1290) propagates out of `doSearch` — it does not return a
result. -/
theorem c2_counterexample :
    doSearch { baseEnv with getSearchPoints := fun _ => Except.error () } 1 =
      DoSearchRes.error := rfl

/-- Claim C2, witness: the amended theorem at a concrete environment whose
external awaits all succeed. -/
theorem c2_witness :
    envNoTerms.latestTabOk = true ∧ envNoTerms.gotoOk = true ∧
      doSearch envNoTerms 1 ≠ DoSearchRes.error :=
  ⟨rfl, rfl,
    c2_doSearch_no_error envNoTerms 1 rfl rfl
      (fun _ => ⟨mobileCounters 0 10, rfl⟩)
      (fun _ => List.cons_ne_nil _ _)⟩
